import Mathlib

/-!
Shallow embedding of the HopOn backend (`src/app.py`): the event-membership
subsystem (join/leave, capacity policy, duplicate-membership check), the
follow/unfollow handlers, the haversine geo calculator and the nearby-events
discovery ranker, together with proofs of the specified properties.

The record shapes (`Event`, `EventParticipant`, `Follow`) are declared in
`models.py`, which is referenced by `app.py` but not part of the sources at
hand; their fields are modelled from the spec's data-model section and from how
`app.py` reads and writes them.  All handler logic is translated directly from
`app.py`.  The store is modelled as in-memory lists with auto-incremented ids;
each handler is a pure function from state and request to an HTTP status code
and the successor state.
-/

namespace HopOn

/-- Event record.  Modelled from the spec: declared in `models.py` (not in the
sources at hand); fields per spec section 3 and per the reads in `app.py`
(`event.max_players`, `e.latitude`, `e.longitude`, `event.id`).  `max_players`
is an unvalidated integer (the spec notes `max_players >= 1` is not enforced). -/
structure Event where
  id : Nat
  name : String
  sport : String
  location : String
  notes : Option String := none
  max_players : Int
  event_date : Option String := none
  latitude : Option ℝ := none
  longitude : Option ℝ := none
  skill_level : Option String := none
  host_user_id : Option Int := none
  created_at : Nat := 0

/-- EventParticipant record.  Modelled from the spec: declared in `models.py`;
fields per spec section 3 and the constructor call in `app.py` line 132. -/
structure EventParticipant where
  id : Nat
  event_id : Nat
  user_id : Option Int
  player_name : String
  team : String

/-- Follow record.  Modelled from the spec: declared in `models.py`; fields per
spec section 3 and the constructor call in `app.py` line 222. -/
structure Follow where
  id : Nat
  follower_id : Int
  followee_id : Int

/-- The durable store: lists of rows plus auto-increment counters for the
dependent entities the handlers insert. -/
structure AppState where
  events : List Event
  participants : List EventParticipant
  follows : List Follow
  next_pid : Nat := 1
  next_fid : Nat := 1

/-- `Event.query.get(event_id)`: look up an event by primary key (first row
whose id matches). -/
def findEvent (s : AppState) (event_id : Nat) : Option Event :=
  s.events.find? (fun e => e.id == event_id)

/-- `event.participants.count()`: number of EventParticipant rows whose
`event_id` references the given event. -/
def countParticipants (s : AppState) (event_id : Nat) : Nat :=
  (s.participants.filter (fun p => p.event_id == event_id)).length

/-- Body of a join request, `app.py` lines 112-120: `player_name` (absent or
empty string is rejected), optional `team` (defaults to `"team_a"`), optional
`user_id`. -/
structure JoinRequest where
  player_name : Option String := none
  team : Option String := none
  user_id : Option Int := none

/-- The row-matching predicate `EventParticipant.query.filter_by(event_id=...,
user_id=...)` used by both the duplicate-join check and leave. -/
def memberOf (event_id : Nat) (uid : Int) (p : EventParticipant) : Bool :=
  p.event_id == event_id && p.user_id == some uid

/-- `POST /events/<event_id>/join` (`app.py` lines 109-146).  Returns the HTTP
status and the successor state.  Order of checks, exactly as in the source:
missing/empty `player_name` gives 400; unknown event gives 404; the capacity
check (`event.participants.count() >= event.max_players`) gives 409 "Event is
full"; then, only if a `user_id` was supplied, the duplicate-join check gives
an idempotent 200 "Already joined"; otherwise a new row is inserted and 200 is
returned. -/
def join_event (s : AppState) (event_id : Nat) (data : JoinRequest) : Nat × AppState :=
  match data.player_name with
  | none => (400, s)
  | some pname =>
    if pname = "" then (400, s)
    else
      match findEvent s event_id with
      | none => (404, s)
      | some event =>
        let team := data.team.getD "team_a"
        if (countParticipants s event.id : Int) ≥ event.max_players then
          (409, s)
        else
          match data.user_id with
          | some uid =>
            match s.participants.find? (memberOf event_id uid) with
            | some _ => (200, s)
            | none =>
              (200, { s with
                participants :=
                  s.participants ++ [⟨s.next_pid, event_id, some uid, pname, team⟩],
                next_pid := s.next_pid + 1 })
          | none =>
            (200, { s with
              participants :=
                s.participants ++ [⟨s.next_pid, event_id, none, pname, team⟩],
              next_pid := s.next_pid + 1 })

/-- `POST /events/<event_id>/leave` (`app.py` lines 148-159): 400 when
`user_id` is missing; otherwise delete the first matching row if any (200
"Left event"), or succeed as a no-op (200 "Not a participant"). -/
def leave_event (s : AppState) (event_id : Nat) (user_id : Option Int) : Nat × AppState :=
  match user_id with
  | none => (400, s)
  | some uid =>
    match s.participants.find? (memberOf event_id uid) with
    | none => (200, s)
    | some _ =>
      (200, { s with participants := s.participants.eraseP (memberOf event_id uid) })

/-- The row-matching predicate `Follow.query.filter_by(follower_id=...,
followee_id=...)` used by follow and unfollow. -/
def followRow (fid followee : Int) (f : Follow) : Bool :=
  f.follower_id == fid && f.followee_id == followee

/-- `POST /users/<user_id>/follow` (`app.py` lines 211-224): 400 when
`follower_id` is missing or equals the target user; idempotent 200 "Already
following" when the row exists; otherwise insert and return 200. -/
def follow_user (s : AppState) (user_id : Nat) (follower_id : Option Int) : Nat × AppState :=
  match follower_id with
  | none => (400, s)
  | some fid =>
    if fid = (user_id : Int) then (400, s)
    else
      match s.follows.find? (followRow fid (user_id : Int)) with
      | some _ => (200, s)
      | none =>
        (200, { s with
          follows := s.follows ++ [⟨s.next_fid, fid, (user_id : Int)⟩],
          next_fid := s.next_fid + 1 })

/-- `DELETE /users/<user_id>/follow` (`app.py` lines 226-236): 400 when
`follower_id` is missing; no-op 200 "Not following" when no row exists;
otherwise delete the row and return 200. -/
def unfollow_user (s : AppState) (user_id : Nat) (follower_id : Option Int) : Nat × AppState :=
  match follower_id with
  | none => (400, s)
  | some fid =>
    match s.follows.find? (followRow fid (user_id : Int)) with
    | none => (200, s)
    | some _ =>
      (200, { s with follows := s.follows.eraseP (followRow fid (user_id : Int)) })

/-- `math.radians`: degrees to radians. -/
noncomputable def radians (deg : ℝ) : ℝ := deg * Real.pi / 180

/-- `haversine_km` (`app.py` lines 36-44): great-circle distance in km between
two coordinates given in degrees, on a sphere of radius 6371.0 km. -/
noncomputable def haversine_km (lat1 lon1 lat2 lon2 : ℝ) : ℝ :=
  let dlat := radians (lat2 - lat1)
  let dlon := radians (lon2 - lon1)
  let a := Real.sin (dlat / 2) ^ 2 +
    Real.cos (radians lat1) * Real.cos (radians lat2) * Real.sin (dlon / 2) ^ 2
  let c := 2 * Real.arcsin (Real.sqrt a)
  6371.0 * c

/-- Modelled from the spec: the Geo Distance Calculator contract of spec
section 4.1, written independently of `haversine_km` — latitudes and
coordinate differences converted to radians,
`a = sin²(Δlat/2) + cos(lat1)·cos(lat2)·sin²(Δlon/2)`, and distance
`2·R·asin(√a)` with `R = 6371.0`. -/
noncomputable def haversine_contract (lat1 lon1 lat2 lon2 : ℝ) : ℝ :=
  2 * 6371.0 * Real.arcsin (Real.sqrt
    (Real.sin (radians (lat2 - lat1) / 2) ^ 2 +
      Real.cos (radians lat1) * Real.cos (radians lat2) *
        Real.sin (radians (lon2 - lon1) / 2) ^ 2))

lemma sin_sq_sub_symm (x y : ℝ) :
    Real.sin ((x - y) * Real.pi / 180 / 2) ^ 2
      = Real.sin ((y - x) * Real.pi / 180 / 2) ^ 2 := by
  rw [show (x - y) * Real.pi / 180 / 2 = -((y - x) * Real.pi / 180 / 2) by ring,
    Real.sin_neg]
  ring

/-- C6: the Geo Distance Calculator is symmetric in its two coordinates, and
the distance from any coordinate to itself is 0. -/
theorem haversine_symm_refl (lat1 lon1 lat2 lon2 lat lon : ℝ) :
    haversine_km lat1 lon1 lat2 lon2 = haversine_km lat2 lon2 lat1 lon1 ∧
    haversine_km lat lon lat lon = 0 := by
  constructor
  · simp only [haversine_km, radians]
    rw [sin_sq_sub_symm lat2 lat1, sin_sq_sub_symm lon2 lon1,
      mul_comm (Real.cos (lat1 * Real.pi / 180)) (Real.cos (lat2 * Real.pi / 180))]
  · simp [haversine_km, radians, sub_self, Real.sqrt_zero, Real.arcsin_zero]

/-- C7: the Geo Distance Calculator computes exactly the spec's contract
formula `2·R·asin(√a)` with `R = 6371.0` and
`a = sin²(Δlat/2) + cos(lat1)·cos(lat2)·sin²(Δlon/2)` (angles in radians); it
is a total function of its four real arguments. -/
theorem haversine_km_eq_contract (lat1 lon1 lat2 lon2 : ℝ) :
    haversine_km lat1 lon1 lat2 lon2 = haversine_contract lat1 lon1 lat2 lon2 := by
  simp only [haversine_km, haversine_contract, radians]
  ring

/-- C5: leaving an event with a supplied `user_id` that has no membership row
is a no-op success: status 200 and the state unchanged. -/
theorem leave_nonmember_noop (s : AppState) (event_id : Nat) (uid : Int)
    (h : s.participants.find? (memberOf event_id uid) = none) :
    leave_event s event_id (some uid) = (200, s) := by
  simp only [leave_event, h]

/-- A state with one event (capacity 3) and no participants, follows or other
rows; used to instantiate hypothesised theorems at concrete inputs. -/
def sampleState : AppState :=
  { events := [{ id := 1, name := "pickup", sport := "soccer", location := "park",
                 max_players := 3 }],
    participants := [], follows := [] }

/-- Witness for C5 at a concrete input: in `sampleState` user 5 has no
membership row for event 1, and leave is a 200 no-op. -/
theorem leave_nonmember_noop_witness :
    sampleState.participants.find? (memberOf 1 5) = none ∧
    leave_event sampleState 1 (some 5) = (200, sampleState) :=
  ⟨rfl, leave_nonmember_noop sampleState 1 5 rfl⟩

lemma join_status_cases (s : AppState) (event_id : Nat) (data : JoinRequest) :
    (join_event s event_id data).1 = 200 ∨ (join_event s event_id data).1 = 400 ∨
      (join_event s event_id data).1 = 404 ∨ (join_event s event_id data).1 = 409 := by
  unfold join_event
  split
  · simp
  · split
    · simp
    · split
      · simp
      · split
        · simp
        · split
          · split
            · simp
            · simp
          · simp

/-- C10: every outcome of the join operation carries status 200, 400, 404 or
409 — in particular a successful join (row created or idempotent re-join)
returns 200, and join never returns 201. -/
theorem join_never_201 (s : AppState) (event_id : Nat) (data : JoinRequest) :
    (join_event s event_id data).1 ≠ 201 ∧
    ((join_event s event_id data).1 = 200 ∨ (join_event s event_id data).1 = 400 ∨
      (join_event s event_id data).1 = 404 ∨ (join_event s event_id data).1 = 409) := by
  refine ⟨?_, join_status_cases s event_id data⟩
  rcases join_status_cases s event_id data with h | h | h | h <;> omega

lemma findEvent_mem {s : AppState} {eid : Nat} {e : Event}
    (h : findEvent s eid = some e) : e ∈ s.events ∧ e.id = eid := by
  unfold findEvent at h
  refine ⟨List.mem_of_find?_eq_some h, ?_⟩
  simpa using List.find?_some h

lemma join_events_eq (s : AppState) (eid : Nat) (d : JoinRequest) :
    (join_event s eid d).2.events = s.events := by
  unfold join_event
  split
  · rfl
  · split
    · rfl
    · split
      · rfl
      · split
        · rfl
        · split
          · split
            · rfl
            · rfl
          · rfl

lemma join_effect (s : AppState) (eid : Nat) (d : JoinRequest) :
    (join_event s eid d).2.participants = s.participants ∨
    ∃ e pname,
      findEvent s eid = some e ∧
      (countParticipants s e.id : Int) < e.max_players ∧
      (∀ u, d.user_id = some u → s.participants.find? (memberOf eid u) = none) ∧
      (join_event s eid d).2.participants =
        s.participants ++ [⟨s.next_pid, eid, d.user_id, pname, d.team.getD "team_a"⟩] := by
  unfold join_event
  split
  · left; rfl
  next pname hpn =>
    split
    · left; rfl
    · split
      · left; rfl
      next e hfe =>
        split
        · left; rfl
        next hcap =>
          split
          next u hu =>
            split
            next p hex => left; rfl
            next hex =>
              right
              exact ⟨e, pname, hfe, lt_of_not_ge hcap,
                fun u' hu' => by rw [hu] at hu'; cases hu'; exact hex,
                by rw [hu]⟩
          next hu =>
            right
            refine ⟨e, pname, hfe, lt_of_not_ge hcap, ?_, ?_⟩
            · intro u' hu'
              rw [hu] at hu'
              cases hu'
            · rw [hu]

lemma countParticipants_append {s s' : AppState} {row : EventParticipant}
    (h : s'.participants = s.participants ++ [row]) (eid : Nat) :
    countParticipants s' eid =
      countParticipants s eid + (if row.event_id == eid then 1 else 0) := by
  simp only [countParticipants, h, List.filter_append, List.length_append]
  congr 1
  split <;> (rename_i hrow; simp [List.filter, hrow])

/-- The capacity invariant of the spec: every event's live participant count
is at most its `max_players`. -/
def CapacityInv (s : AppState) : Prop :=
  ∀ e ∈ s.events, (countParticipants s e.id : Int) ≤ e.max_players

lemma join_preserves_capacity (s : AppState) (eid : Nat) (d : JoinRequest)
    (hids : (s.events.map Event.id).Nodup) (hinv : CapacityInv s) :
    CapacityInv (join_event s eid d).2 := by
  intro e' he'
  rw [join_events_eq] at he'
  rcases join_effect s eid d with h | ⟨e, pname, hfe, hcap, -, happ⟩
  · unfold countParticipants
    rw [h]
    exact hinv e' he'
  · rw [countParticipants_append happ]
    rcases findEvent_mem hfe with ⟨hem, heid⟩
    by_cases hrow : eid = e'.id
    · have he'e : e' = e :=
        List.inj_on_of_nodup_map hids he' hem (by rw [← hrow, heid])
      rw [if_pos (show ((eid == e'.id) = true) by simp [hrow])]
      rw [he'e]
      push_cast
      omega
    · rw [if_neg (show ¬ ((eid == e'.id) = true) by simpa using hrow)]
      simpa using hinv e' he'

/-- A sequence of join requests applied in order: the states reachable from
`s` by join operations alone. -/
def runJoins (s : AppState) : List (Nat × JoinRequest) → AppState
  | [] => s
  | (eid, d) :: rest => runJoins (join_event s eid d).2 rest

lemma runJoins_events (s : AppState) (js : List (Nat × JoinRequest)) :
    (runJoins s js).events = s.events := by
  induction js generalizing s with
  | nil => rfl
  | cons j rest ih =>
    rcases j with ⟨eid, d⟩
    rw [runJoins, ih, join_events_eq]

lemma join_full_rejected (s : AppState) (eid : Nat) (d : JoinRequest)
    (pname : String) (e : Event)
    (hpn : d.player_name = some pname) (hpe : pname ≠ "")
    (hfe : findEvent s eid = some e)
    (hcap : (countParticipants s e.id : Int) ≥ e.max_players) :
    join_event s eid d = (409, s) := by
  simp only [join_event, hpn, if_neg hpe, hfe, if_pos hcap]

/-- C2: starting from a store with distinct event ids where every event's
participant count is within capacity, the capacity invariant
`countParticipants(e) ≤ max_players` holds after any sequence of join
operations, and a well-formed join aimed at an event whose count equals its
`max_players` is rejected with 409 and leaves the state unchanged. -/
theorem capacity_invariant (s : AppState) (js : List (Nat × JoinRequest))
    (hids : (s.events.map Event.id).Nodup) (hinv : CapacityInv s) :
    CapacityInv (runJoins s js) ∧
    (∀ eid d pname e, d.player_name = some pname → pname ≠ "" →
      findEvent (runJoins s js) eid = some e →
      (countParticipants (runJoins s js) e.id : Int) = e.max_players →
      join_event (runJoins s js) eid d = (409, runJoins s js)) := by
  have main : CapacityInv (runJoins s js) := by
    induction js generalizing s with
    | nil => exact hinv
    | cons j rest ih =>
      rcases j with ⟨eid, d⟩
      rw [runJoins]
      refine ih _ ?_ (join_preserves_capacity s eid d hids hinv)
      rw [join_events_eq]
      exact hids
  refine ⟨main, fun eid d pname e hpn hpe hfe hcap => ?_⟩
  exact join_full_rejected _ eid d pname e hpn hpe hfe (le_of_eq hcap.symm)

/-- Witness for C2 at a concrete input: from `sampleState` (one event of
capacity 3, no rows), after three named joins the invariant still holds, and
the now-full event rejects a fourth join with 409. -/
theorem capacity_invariant_witness :
    CapacityInv (runJoins sampleState
      [(1, { player_name := some "a", user_id := some 1 }),
       (1, { player_name := some "b", user_id := some 2 }),
       (1, { player_name := some "c", user_id := some 3 })]) ∧
    join_event (runJoins sampleState
      [(1, { player_name := some "a", user_id := some 1 }),
       (1, { player_name := some "b", user_id := some 2 }),
       (1, { player_name := some "c", user_id := some 3 })]) 1
      { player_name := some "d", user_id := some 4 } =
      (409, runJoins sampleState
        [(1, { player_name := some "a", user_id := some 1 }),
         (1, { player_name := some "b", user_id := some 2 }),
         (1, { player_name := some "c", user_id := some 3 })]) := by
  have h := capacity_invariant sampleState
    [(1, { player_name := some "a", user_id := some 1 }),
     (1, { player_name := some "b", user_id := some 2 }),
     (1, { player_name := some "c", user_id := some 3 })]
    (by decide) (by intro e he; fin_cases he; decide)
  refine ⟨h.1, h.2 1 { player_name := some "d", user_id := some 4 } "d"
    { id := 1, name := "pickup", sport := "soccer", location := "park", max_players := 3 }
    rfl (by decide) rfl ?_⟩
  decide

lemma filter_append_singleton {α : Type} (q : α → Bool) (l : List α) (x : α) :
    (List.filter q (l ++ [x])).length =
      (List.filter q l).length + (if q x then 1 else 0) := by
  simp only [List.filter_append, List.length_append]
  congr 1
  split <;> (rename_i h; simp [List.filter, h])

/-- The per-user membership uniqueness invariant of the spec: for every event
id and every non-null user id, at most one EventParticipant row matches. -/
def UniqueMembership (s : AppState) : Prop :=
  ∀ eid : Nat, ∀ u : Int, (s.participants.filter (memberOf eid u)).length ≤ 1

lemma join_preserves_unique (s : AppState) (eid : Nat) (d : JoinRequest)
    (hinv : UniqueMembership s) : UniqueMembership (join_event s eid d).2 := by
  intro eid' u'
  rcases join_effect s eid d with h | ⟨e, pname, hfe, hcap, hdup, happ⟩
  · rw [h]
    exact hinv eid' u'
  · rw [happ, filter_append_singleton]
    by_cases hq :
        memberOf eid' u' ⟨s.next_pid, eid, d.user_id, pname, d.team.getD "team_a"⟩ = true
    · have hpair : eid = eid' ∧ d.user_id = some u' := by
        have := hq
        simp only [memberOf, Bool.and_eq_true, beq_iff_eq] at this
        exact this
      have hnone := hdup u' hpair.2
      have hfil : s.participants.filter (memberOf eid' u') = [] := by
        rw [List.filter_eq_nil_iff]
        intro p hp
        have := List.find?_eq_none.mp hnone p hp
        rwa [hpair.1] at this
      simp [hq, hfil]
    · simp only [hq, if_neg, Bool.false_eq_true, not_false_eq_true, add_zero]
      exact hinv eid' u'

lemma leave_participants_sublist (s : AppState) (eid : Nat) (u : Option Int) :
    (leave_event s eid u).2.participants.Sublist s.participants := by
  unfold leave_event
  split
  · exact List.Sublist.refl _
  · split
    · exact List.Sublist.refl _
    · exact List.eraseP_sublist _

lemma leave_preserves_unique (s : AppState) (eid : Nat) (u : Option Int)
    (hinv : UniqueMembership s) : UniqueMembership (leave_event s eid u).2 := by
  intro eid' u'
  exact le_trans
    (List.Sublist.length_le (List.Sublist.filter _ (leave_participants_sublist s eid u)))
    (hinv eid' u')

/-- An operation against the Membership Ledger: one join or one leave request. -/
inductive MemberOp where
  | join (event_id : Nat) (data : JoinRequest)
  | leave (event_id : Nat) (user_id : Option Int)

/-- Apply one membership operation, keeping the successor state. -/
def applyMemberOp (s : AppState) : MemberOp → AppState
  | .join eid d => (join_event s eid d).2
  | .leave eid u => (leave_event s eid u).2

/-- A (sequential) sequence of join and leave operations applied in order. -/
def runMemberOps (s : AppState) : List MemberOp → AppState
  | [] => s
  | op :: rest => runMemberOps (applyMemberOp s op) rest

lemma runMemberOps_unique (s : AppState) (ops : List MemberOp)
    (hinv : UniqueMembership s) : UniqueMembership (runMemberOps s ops) := by
  induction ops generalizing s with
  | nil => exact hinv
  | cons op rest ih =>
    rw [runMemberOps]
    refine ih _ ?_
    cases op with
    | join eid d => exact join_preserves_unique s eid d hinv
    | leave eid u => exact leave_preserves_unique s eid u hinv

lemma join_rejoin_noop (s : AppState) (eid : Nat) (d : JoinRequest)
    (pname : String) (u : Int) (e : Event)
    (hpn : d.player_name = some pname) (hpe : pname ≠ "")
    (hu : d.user_id = some u)
    (hfe : findEvent s eid = some e)
    (hcap : (countParticipants s e.id : Int) < e.max_players)
    (hex : (s.participants.find? (memberOf eid u)).isSome) :
    join_event s eid d = (200, s) := by
  obtain ⟨p, hp⟩ := Option.isSome_iff_exists.mp hex
  simp only [join_event, hpn, if_neg hpe, hfe, if_neg (not_le.mpr hcap), hu, hp]

/-- C3 (amended): starting from a store satisfying per-user membership
uniqueness, after any sequential sequence of join and leave operations at most
one EventParticipant row exists per (event_id, non-null user_id); a second
join with the same (eventId, userId) is an idempotent success (200, state
unchanged) provided the event is not at capacity when it runs. -/
theorem unique_membership (s : AppState) (ops : List MemberOp)
    (hinv : UniqueMembership s) :
    UniqueMembership (runMemberOps s ops) ∧
    (∀ eid u d pname e,
      d.player_name = some pname → pname ≠ "" → d.user_id = some u →
      findEvent (runMemberOps s ops) eid = some e →
      ((runMemberOps s ops).participants.find? (memberOf eid u)).isSome →
      (countParticipants (runMemberOps s ops) e.id : Int) < e.max_players →
      join_event (runMemberOps s ops) eid d = (200, runMemberOps s ops)) := by
  refine ⟨runMemberOps_unique s ops hinv, ?_⟩
  intro eid u d pname e hpn hpe hu hfe hex hcap
  exact join_rejoin_noop _ eid d pname u e hpn hpe hu hfe hcap hex

/-- Witness for C3 (amended) at a concrete input: from `sampleState`, after a
join and a leave by user 1, the uniqueness invariant holds; moreover a re-join
by user 1 right after the first join (event 1 not full, capacity 3) is a 200
no-op. -/
theorem unique_membership_witness :
    UniqueMembership (runMemberOps sampleState
      [.join 1 { player_name := some "a", user_id := some 1 },
       .leave 1 (some 1)]) ∧
    join_event (runMemberOps sampleState
        [.join 1 { player_name := some "a", user_id := some 1 }]) 1
      { player_name := some "a", user_id := some 1 } =
      (200, runMemberOps sampleState
        [.join 1 { player_name := some "a", user_id := some 1 }]) := by
  constructor
  · exact (unique_membership sampleState
      [.join 1 { player_name := some "a", user_id := some 1 },
       .leave 1 (some 1)] (fun _ _ => by simp [sampleState])).1
  · exact (unique_membership sampleState
      [.join 1 { player_name := some "a", user_id := some 1 }]
      (fun _ _ => by simp [sampleState])).2 1 1
      { player_name := some "a", user_id := some 1 } "a"
      { id := 1, name := "pickup", sport := "soccer", location := "park", max_players := 3 }
      rfl (by decide) rfl rfl rfl (by decide)

/-- The request used in the C3 counterexample: user 7 with a player name. -/
def joinReq7 : JoinRequest := { player_name := some "gina", user_id := some 7 }

/-- A store with one capacity-1 event (id 2) and no participants. -/
def capOneState : AppState :=
  { events := [{ id := 2, name := "run", sport := "running", location := "trail",
                 max_players := 1 }],
    participants := [], follows := [] }

/-- C3 counterexample: joining capacity-1 event 2 twice with user 7 leaves
exactly one membership row, but the second call returns 409 (capacity is
checked before the duplicate-membership check), not the success the claim
asserts. -/
theorem second_join_full_not_success :
    (join_event capOneState 2 joinReq7).1 = 200 ∧
    (join_event (join_event capOneState 2 joinReq7).2 2 joinReq7).1 = 409 ∧
    ((join_event (join_event capOneState 2 joinReq7).2 2 joinReq7).2.participants.filter
        (memberOf 2 7)).length = 1 :=
  ⟨rfl, rfl, rfl⟩

/-- A full event: capacity 1 with one registered participant (user 5). -/
def fullEvent : Event :=
  { id := 1, name := "pickup", sport := "soccer", location := "park", max_players := 1 }

/-- A store where `fullEvent` is at capacity: user 5 holds its one row. -/
def fullState : AppState :=
  { events := [fullEvent],
    participants := [⟨1, 1, some 5, "alice", "team_a"⟩],
    follows := [], next_pid := 2 }

/-- C1 counterexample: user 5 already holds a membership row for event 1, the
event is at capacity (1 of 1), and the re-join by user 5 returns 409 — not the
200 the claim asserts — because `join_event` evaluates the capacity check
before the duplicate-membership check. -/
theorem rejoin_full_event_409 :
    (fullState.participants.find? (memberOf 1 5)).isSome = true ∧
    countParticipants fullState 1 = 1 ∧ fullEvent.max_players = 1 ∧
    join_event fullState 1 { player_name := some "alice", user_id := some 5 } =
      (409, fullState) :=
  ⟨rfl, rfl, rfl, rfl⟩

/-- C1 (amended): a join with a `userId` that already has a membership row for
the event is an idempotent no-op success (200, current state) whenever the
capacity check passes, but the capacity check is evaluated before the
duplicate-membership check, so when the event is full the same re-join is
rejected with 409 (state unchanged in both cases). -/
theorem idempotent_rejoin (s : AppState) (eid : Nat) (d : JoinRequest)
    (pname : String) (u : Int) (e : Event)
    (hpn : d.player_name = some pname) (hpe : pname ≠ "")
    (hu : d.user_id = some u)
    (hfe : findEvent s eid = some e)
    (hex : (s.participants.find? (memberOf eid u)).isSome) :
    ((countParticipants s e.id : Int) < e.max_players →
      join_event s eid d = (200, s)) ∧
    ((countParticipants s e.id : Int) ≥ e.max_players →
      join_event s eid d = (409, s)) :=
  ⟨fun hcap => join_rejoin_noop s eid d pname u e hpn hpe hu hfe hcap hex,
   fun hcap => join_full_rejected s eid d pname e hpn hpe hfe hcap⟩

/-- A store with one capacity-3 event whose single row belongs to user 5. -/
def rejoinState : AppState :=
  { events := [{ id := 1, name := "pickup", sport := "soccer", location := "park",
                 max_players := 3 }],
    participants := [⟨1, 1, some 5, "alice", "team_a"⟩],
    follows := [], next_pid := 2 }

/-- Witness for C1 (amended) at a concrete input: in `rejoinState` (capacity
3, one row for user 5) a re-join by user 5 is a 200 no-op. -/
theorem idempotent_rejoin_witness :
    join_event rejoinState 1 { player_name := some "alice", user_id := some 5 } =
      (200, rejoinState) :=
  (idempotent_rejoin rejoinState 1
    { player_name := some "alice", user_id := some 5 } "alice" 5
    { id := 1, name := "pickup", sport := "soccer", location := "park", max_players := 3 }
    rfl (by decide) rfl rfl rfl).1 (by decide)

lemma join_anon_insert (s : AppState) (eid : Nat) (d : JoinRequest)
    (pname : String) (e : Event)
    (hpn : d.player_name = some pname) (hpe : pname ≠ "")
    (hu : d.user_id = none)
    (hfe : findEvent s eid = some e)
    (hcap : (countParticipants s e.id : Int) < e.max_players) :
    join_event s eid d =
      (200, { s with
        participants :=
          s.participants ++ [⟨s.next_pid, eid, none, pname, d.team.getD "team_a"⟩],
        next_pid := s.next_pid + 1 }) := by
  simp only [join_event, hpn, if_neg hpe, hfe, if_neg (not_le.mpr hcap), hu]

/-- C9: a join without a `user_id` (guest join by name only) performs no
duplicate-membership check: whenever the capacity check passes it inserts a
fresh EventParticipant row with null user_id — no hypothesis restricts the
existing rows, so this holds even when a row with the same `player_name`
already exists — and the event's participant count grows by one. -/
theorem anonymous_join_inserts (s : AppState) (eid : Nat) (d : JoinRequest)
    (pname : String) (e : Event)
    (hpn : d.player_name = some pname) (hpe : pname ≠ "")
    (hu : d.user_id = none)
    (hfe : findEvent s eid = some e)
    (hcap : (countParticipants s e.id : Int) < e.max_players) :
    join_event s eid d =
      (200, { s with
        participants :=
          s.participants ++ [⟨s.next_pid, eid, none, pname, d.team.getD "team_a"⟩],
        next_pid := s.next_pid + 1 }) ∧
    countParticipants (join_event s eid d).2 eid = countParticipants s eid + 1 := by
  have h := join_anon_insert s eid d pname e hpn hpe hu hfe hcap
  refine ⟨h, ?_⟩
  have happ : (join_event s eid d).2.participants =
      s.participants ++ [⟨s.next_pid, eid, none, pname, d.team.getD "team_a"⟩] := by
    rw [h]
  rw [countParticipants_append happ eid]
  simp

/-- A store whose capacity-5 event 3 already holds an anonymous row named
"dave"; a second anonymous "dave" join must still insert. -/
def anonState : AppState :=
  { events := [{ id := 3, name := "hoops", sport := "basketball", location := "gym",
                 max_players := 5 }],
    participants := [⟨1, 3, none, "dave", "team_a"⟩],
    follows := [], next_pid := 2 }

/-- Witness for C9 at a concrete input: in `anonState` an anonymous join named
"dave" inserts a second row even though an anonymous "dave" row exists, and
the count rises from 1 to 2. -/
theorem anonymous_join_inserts_witness :
    join_event anonState 3 { player_name := some "dave" } =
      (200, { anonState with
        participants :=
          anonState.participants ++ [⟨anonState.next_pid, 3, none, "dave", "team_a"⟩],
        next_pid := anonState.next_pid + 1 }) ∧
    countParticipants (join_event anonState 3 { player_name := some "dave" }).2 3 = 2 := by
  have h := anonymous_join_inserts anonState 3 { player_name := some "dave" } "dave"
    { id := 3, name := "hoops", sport := "basketball", location := "gym", max_players := 5 }
    rfl (by decide) rfl rfl (by decide)
  exact ⟨h.1, by rw [h.2]; decide⟩

/-- The Follow-state invariant of the spec: no row follows itself, and at most
one row exists per (follower_id, followee_id) pair. -/
def FollowInv (s : AppState) : Prop :=
  (∀ f ∈ s.follows, f.follower_id ≠ f.followee_id) ∧
  ∀ a b : Int, (s.follows.filter (followRow a b)).length ≤ 1

lemma follow_effect (s : AppState) (user_id : Nat) (fid? : Option Int) :
    (follow_user s user_id fid?).2.follows = s.follows ∨
    ∃ fid, fid? = some fid ∧ fid ≠ (user_id : Int) ∧
      s.follows.find? (followRow fid (user_id : Int)) = none ∧
      (follow_user s user_id fid?).2.follows =
        s.follows ++ [⟨s.next_fid, fid, (user_id : Int)⟩] := by
  rcases hfid : fid? with _ | fid
  · left
    simp [follow_user]
  · simp only [follow_user]
    split_ifs with hself
    · left; rfl
    · rcases hex : s.follows.find? (followRow fid (user_id : Int)) with _ | f
      · right
        exact ⟨fid, rfl, hself, hex, by simp [hex]⟩
      · left
        simp [hex]

lemma follow_preserves_inv (s : AppState) (user_id : Nat) (fid? : Option Int)
    (hinv : FollowInv s) : FollowInv (follow_user s user_id fid?).2 := by
  rcases follow_effect s user_id fid? with h | ⟨fid, -, hself, hex, happ⟩
  · exact ⟨fun f hf => hinv.1 f (by rwa [h] at hf), fun a b => by
      rw [show (follow_user s user_id fid?).2.follows.filter (followRow a b)
        = s.follows.filter (followRow a b) by rw [h]]
      exact hinv.2 a b⟩
  · constructor
    · intro f hf
      rw [happ, List.mem_append] at hf
      rcases hf with hf | hf
      · exact hinv.1 f hf
      · simp only [List.mem_singleton] at hf
        rw [hf]
        exact hself
    · intro a b
      rw [happ, filter_append_singleton]
      by_cases hq : followRow a b ⟨s.next_fid, fid, (user_id : Int)⟩ = true
      · have hpair : fid = a ∧ (user_id : Int) = b := by
          have := hq
          simp only [followRow, Bool.and_eq_true, beq_iff_eq] at this
          exact this
        have hfil : s.follows.filter (followRow a b) = [] := by
          rw [List.filter_eq_nil_iff]
          intro f hf
          have := List.find?_eq_none.mp hex f hf
          rwa [hpair.1, hpair.2] at this
        simp [hq, hfil]
      · simp only [hq, if_neg, Bool.false_eq_true, not_false_eq_true, add_zero]
        exact hinv.2 a b

lemma unfollow_follows_sublist (s : AppState) (user_id : Nat) (fid? : Option Int) :
    (unfollow_user s user_id fid?).2.follows.Sublist s.follows := by
  unfold unfollow_user
  split
  · exact List.Sublist.refl _
  · split
    · exact List.Sublist.refl _
    · exact List.eraseP_sublist _

lemma unfollow_preserves_inv (s : AppState) (user_id : Nat) (fid? : Option Int)
    (hinv : FollowInv s) : FollowInv (unfollow_user s user_id fid?).2 := by
  have hsub := unfollow_follows_sublist s user_id fid?
  exact ⟨fun f hf => hinv.1 f (hsub.mem hf),
    fun a b => le_trans (List.Sublist.length_le (List.Sublist.filter _ hsub)) (hinv.2 a b)⟩

/-- An operation against the follow graph: one follow or one unfollow request. -/
inductive FollowOp where
  | follow (user_id : Nat) (follower_id : Option Int)
  | unfollow (user_id : Nat) (follower_id : Option Int)

/-- Apply one follow-graph operation, keeping the successor state. -/
def applyFollowOp (s : AppState) : FollowOp → AppState
  | .follow uid fid => (follow_user s uid fid).2
  | .unfollow uid fid => (unfollow_user s uid fid).2

/-- A sequence of follow and unfollow operations applied in order. -/
def runFollowOps (s : AppState) : List FollowOp → AppState
  | [] => s
  | op :: rest => runFollowOps (applyFollowOp s op) rest

lemma runFollowOps_inv (s : AppState) (ops : List FollowOp)
    (hinv : FollowInv s) : FollowInv (runFollowOps s ops) := by
  induction ops generalizing s with
  | nil => exact hinv
  | cons op rest ih =>
    rw [runFollowOps]
    refine ih _ ?_
    cases op with
    | follow uid fid => exact follow_preserves_inv s uid fid hinv
    | unfollow uid fid => exact unfollow_preserves_inv s uid fid hinv

/-- C8: starting from a follow graph satisfying the invariant (no self-follow
row, at most one row per ordered pair), the invariant holds after any sequence
of follow and unfollow operations; moreover a self-follow always fails with
400, a repeated follow of an existing pair is a 200 no-op, and an unfollow of
a non-existent pair is a 200 no-op. -/
theorem follow_invariants (s : AppState) (ops : List FollowOp)
    (hinv : FollowInv s) :
    FollowInv (runFollowOps s ops) ∧
    (∀ u : Nat, follow_user (runFollowOps s ops) u (some (u : Int)) =
      (400, runFollowOps s ops)) ∧
    (∀ (u : Nat) (fid : Int), fid ≠ (u : Int) →
      ((runFollowOps s ops).follows.find? (followRow fid (u : Int))).isSome →
      follow_user (runFollowOps s ops) u (some fid) = (200, runFollowOps s ops)) ∧
    (∀ (u : Nat) (fid : Int),
      (runFollowOps s ops).follows.find? (followRow fid (u : Int)) = none →
      unfollow_user (runFollowOps s ops) u (some fid) = (200, runFollowOps s ops)) := by
  refine ⟨runFollowOps_inv s ops hinv, fun u => ?_, fun u fid hne hex => ?_, fun u fid hnone => ?_⟩
  · simp [follow_user]
  · obtain ⟨f, hf⟩ := Option.isSome_iff_exists.mp hex
    simp [follow_user, if_neg hne, hf]
  · simp [unfollow_user, hnone]

/-- Witness for C8 at a concrete input: from `sampleState` (no follow rows),
after user 1 follows user 2 twice and user 9 is unfollowed, the invariant
holds, and the self-follow of user 4 fails with 400. -/
theorem follow_invariants_witness :
    FollowInv (runFollowOps sampleState
      [.follow 2 (some 1), .follow 2 (some 1), .unfollow 2 (some 9)]) ∧
    follow_user (runFollowOps sampleState
      [.follow 2 (some 1), .follow 2 (some 1), .unfollow 2 (some 9)]) 4 (some 4) =
      (400, runFollowOps sampleState
        [.follow 2 (some 1), .follow 2 (some 1), .unfollow 2 (some 9)]) := by
  have h := follow_invariants sampleState
    [.follow 2 (some 1), .follow 2 (some 1), .unfollow 2 (some 9)]
    ⟨fun f hf => by simp [sampleState] at hf, fun a b => by simp [sampleState]⟩
  exact ⟨h.1, h.2.1 4⟩

/-- The per-event projection of `GET /events/nearby` (`app.py` lines 92-98):
when the query supplies both `lat` and `lng` and the event carries both
coordinates, the haversine distance is attached; otherwise the distance is
null. -/
noncomputable def attachDistance (lat lng : Option ℝ) (e : Event) : Event × Option ℝ :=
  match lat, lng, e.latitude, e.longitude with
  | some la, some ln, some ela, some eln => (e, some (haversine_km la ln ela eln))
  | _, _, _, _ => (e, none)

/-- The sort key of `app.py` line 100: the attached distance when present,
otherwise the sentinel 1e9. -/
noncomputable def sortKey (x : Event × Option ℝ) : ℝ :=
  match x.2 with
  | some d => d
  | none => 1000000000

/-- `GET /events/nearby` (`app.py` lines 85-101): attach a distance (or null)
to every event, then sort ascending by the sort key with a stable merge sort,
as Python's stable `list.sort` does. -/
noncomputable def nearby_events (lat lng : Option ℝ) (events : List Event) :
    List (Event × Option ℝ) :=
  (events.map (attachDistance lat lng)).mergeSort
    (fun x y => decide (sortKey x ≤ sortKey y))

lemma haversine_km_lt_sentinel (lat1 lon1 lat2 lon2 : ℝ) :
    haversine_km lat1 lon1 lat2 lon2 < 1000000000 := by
  simp only [haversine_km]
  have h1 := Real.arcsin_le_pi_div_two (Real.sqrt
    (Real.sin (radians (lat2 - lat1) / 2) ^ 2 +
      Real.cos (radians lat1) * Real.cos (radians lat2) *
        Real.sin (radians (lon2 - lon1) / 2) ^ 2))
  have h2 := Real.pi_lt_d2
  linarith

lemma attachDistance_cases (la ln : ℝ) (events : List Event)
    (x : Event × Option ℝ)
    (hx : x ∈ events.map (attachDistance (some la) (some ln))) :
    x.1 ∈ events ∧
    (∀ ela eln, x.1.latitude = some ela → x.1.longitude = some eln →
      x.2 = some (haversine_km la ln ela eln)) ∧
    ((x.1.latitude = none ∨ x.1.longitude = none) → x.2 = none) ∧
    (∀ dv, x.2 = some dv → dv < 1000000000) := by
  rcases List.mem_map.mp hx with ⟨e, he, hxe⟩
  subst hxe
  rcases hlat : e.latitude with _ | ela <;> rcases hlng : e.longitude with _ | eln <;>
    simp only [attachDistance, hlat, hlng]
  · exact ⟨he, by simp, by simp, by simp⟩
  · exact ⟨he, by simp, by simp, by simp⟩
  · exact ⟨he, by simp, by simp, by simp⟩
  · refine ⟨he, ?_, ?_, ?_⟩
    · intro ela' eln' h1 h2
      cases h1
      cases h2
      rfl
    · intro h
      rcases h with h | h <;> cases h
    · intro dv h
      cases h
      exact haversine_km_lt_sentinel la ln ela eln

/-- C4: for a reference point with both coordinates, the discovery result is a
permutation of the events each carrying the haversine distance when the event
has both coordinates and a null distance otherwise; it is sorted ascending by
the distance key, and every null-distance entry comes after every entry with a
computed distance. -/
theorem nearby_events_ranked (la ln : ℝ) (events : List Event) :
    (nearby_events (some la) (some ln) events).Perm
      (events.map (attachDistance (some la) (some ln))) ∧
    (∀ x ∈ nearby_events (some la) (some ln) events,
      x.1 ∈ events ∧
      (∀ ela eln, x.1.latitude = some ela → x.1.longitude = some eln →
        x.2 = some (haversine_km la ln ela eln)) ∧
      ((x.1.latitude = none ∨ x.1.longitude = none) → x.2 = none)) ∧
    (nearby_events (some la) (some ln) events).Pairwise
      (fun x y => sortKey x ≤ sortKey y) ∧
    (nearby_events (some la) (some ln) events).Pairwise
      (fun x y => x.2 = none → y.2 = none) := by
  have hperm : (nearby_events (some la) (some ln) events).Perm
      (events.map (attachDistance (some la) (some ln))) :=
    List.mergeSort_perm _ _
  have hsorted0 :=
    @List.sorted_mergeSort (Event × Option ℝ)
      (fun x y => decide (sortKey x ≤ sortKey y))
      (fun a b c hab hbc => by
        simp only [decide_eq_true_eq] at hab hbc ⊢
        exact le_trans hab hbc)
      (fun a b => by
        simp only [Bool.or_eq_true, decide_eq_true_eq]
        exact le_total _ _)
      (events.map (attachDistance (some la) (some ln)))
  have hsorted : (nearby_events (some la) (some ln) events).Pairwise
      (fun x y => sortKey x ≤ sortKey y) := by
    refine List.Pairwise.imp ?_ hsorted0
    intro a b h
    simpa using h
  refine ⟨hperm, ?_, hsorted, ?_⟩
  · intro x hx
    have hx' : x ∈ events.map (attachDistance (some la) (some ln)) :=
      hperm.mem_iff.mp hx
    have h := attachDistance_cases la ln events x hx'
    exact ⟨h.1, h.2.1, h.2.2.1⟩
  · refine List.Pairwise.imp_of_mem ?_ hsorted
    intro a b ha hb hle hanone
    rcases hb2 : b.2 with _ | db
    · rfl
    · exfalso
      have hb' : b ∈ events.map (attachDistance (some la) (some ln)) :=
        hperm.mem_iff.mp hb
      have hbound := (attachDistance_cases la ln events b hb').2.2.2 db hb2
      have hka : sortKey a = 1000000000 := by simp [sortKey, hanone]
      have hkb : sortKey b = db := by simp [sortKey, hb2]
      rw [hka, hkb] at hle
      linarith

end HopOn
